import Mathlib

/-!
Verification development for the FTX market-data connector
(hummingbot/market/ftx): a shallow embedding of the message decoder
(ftx_api_order_book_data_source.py) and the order-book tracker
(ftx_order_book_tracker.py), with theorems settling the specified
properties of the reconciliation protocol.
-/

/-! ## Association-list maps (Python dict semantics: lookup, delete, assign) -/

/-- Dictionary lookup: first binding for the key, if any. -/
def lookupK {α : Type} : List (String × α) → String → Option α
  | [], _ => none
  | (kk, v) :: rest, k => if kk = k then some v else lookupK rest k

/-- Dictionary delete (`del d[k]` / `d.pop(k, None)` removal effect). -/
def eraseK {α : Type} : List (String × α) → String → List (String × α)
  | [], _ => []
  | (kk, v) :: rest, k =>
    if kk = k then eraseK rest k else (kk, v) :: eraseK rest k

/-- Dictionary assignment `d[k] = v`: replace in place, or append when new. -/
def setK {α : Type} : List (String × α) → String → α → List (String × α)
  | [], k, v => [(k, v)]
  | (kk, vv) :: rest, k, v =>
    if kk = k then (k, v) :: rest else (kk, vv) :: setK rest k v

/-! ## Message Decoder (`FtxAPIOrderBookDataSource._transform_raw_message`)

The decoder works on JSON payloads; the JSON values the source inspects are
strings (the instrument field `M`) and the nonce field `N` (read opaquely),
so a JSON value is embedded as a string of characters, a number, or a
boolean. Python exceptions are split into `SyntaxError` (the one exception
class the inner decoder's first handler catches) and everything else. -/

inductive JVal where
  | str : List Char → JVal
  | num : Int → JVal
  | boolV : Bool → JVal
  deriving DecidableEq

/-- A decoded JSON object (Python dict keyed by field name). -/
abbrev Obj := List (String × JVal)

/-- Python exception classes distinguished by the decoder's handlers. -/
inductive PyExc where
  | synErr   : PyExc
  | otherErr : PyExc
  deriving DecidableEq

/-- Bytes are embedded by the outcome of parsing them as JSON
(`ujson.loads(decoded_msg.decode())`): either an object or a parse error. -/
abbrev PyBytes := Except Unit Obj

/-- A raw inner payload, embedded by the outcomes of the two decode
attempts the source can make on it:
`primary`  = `decompress(b64decode(raw_message, validate=True), -MAX_WBITS)`,
`fallback` = `decompress(b64decode(raw_message))`. -/
structure Payload where
  primary : Except PyExc PyBytes
  fallback : Except PyExc PyBytes

/-- `ujson.loads` on decoded bytes: a parse failure raises (ValueError),
which is not a `SyntaxError`. -/
def ujsonLoads (b : PyBytes) : Except PyExc Obj :=
  match b with
  | .ok o => .ok o
  | .error _ => .error .otherErr

/-- Embedding of the inner `_decode_message`: try the primary decode; a
`SyntaxError` falls through to the unprotected fallback decode; any other
exception yields `{}`; the final `ujson.loads` sits outside the `try` and
propagates its errors. -/
def decode_message (p : Payload) : Except PyExc Obj :=
  match p.primary with
  | .ok b => ujsonLoads b
  | .error .synErr =>
    match p.fallback with
    | .ok b => ujsonLoads b
    | .error e => .error e
  | .error .otherErr => .ok []

/-- Python `str.split(c)` on a character string. -/
def splitOnChar (c : Char) : List Char → List (List Char)
  | [] => [[]]
  | x :: rest =>
    if x = c then [] :: splitOnChar c rest
    else
      match splitOnChar c rest with
      | [] => [[x]]
      | h :: t => (x :: h) :: t

/-- Hyphen split used by the instrument normalization. -/
def splitDash (s : List Char) : List (List Char) :=
  splitOnChar '-' s

/-- Subscript access `o[k]`: raises `KeyError` when the key is absent. -/
def getItem (o : Obj) (k : String) : Except PyExc JVal :=
  match lookupK o k with
  | some v => .ok v
  | none => .error .otherErr

/-- Attribute access `.split` on a JSON value: only strings have it
(anything else raises `AttributeError`). -/
def asStr (v : JVal) : Except PyExc (List Char) :=
  match v with
  | .str s => .ok s
  | _ => .error .otherErr

/-- The instrument rewrite applied in both decoder branches:
`results["M"] = f"{M.split('-')[1]}-{M.split('-')[0]}"`.
Missing key, non-string value, or a split with no second component raise. -/
def normalizePair (res : Obj) : Except PyExc Obj :=
  match getItem res "M" with
  | .error e => .error e
  | .ok v =>
    match asStr v with
    | .error e => .error e
    | .ok s =>
      match splitDash s with
      | p0 :: p1 :: _ => .ok (setK res "M" (.str (p1 ++ '-' :: p0)))
      | _ => .error .otherErr

/-- Message classification of the decoder's output record. -/
inductive MsgKind where
  | snapshot : MsgKind
  | update : MsgKind
  deriving DecidableEq

/-- The decoder's output record `{nonce, type, results}`. -/
structure TOutput where
  nonce : Option JVal
  type : Option MsgKind
  results : Obj
  deriving DecidableEq

/-- A raw frame after the top-level `ujson.loads(msg)`:
either malformed JSON (the load raises), or a parsed object described by
the fields the classifier inspects: `rfield` is the payload of a non-bool
`R` field (the snapshot marker), `deltaMark` states whether
`M[0]["M"] == "uE"`, and `apay` is the payload `M[0]["A"][0]` when that
subscript chain is available. -/
structure ParsedFrame where
  rfield : Option Payload
  deltaMark : Bool
  apay : Option Payload

inductive RawFrame where
  | malformed : RawFrame
  | parsed : ParsedFrame → RawFrame

/-- Shared body of the two decoder branches: decode the inner payload,
normalize the instrument, then read the nonce `results["N"]`. -/
def decodedBranch (p : Payload) (k : MsgKind) : Except PyExc TOutput :=
  match decode_message p with
  | .error e => .error e
  | .ok res =>
    match normalizePair res with
    | .error e => .error e
    | .ok res2 =>
      match getItem res2 "N" with
      | .error e => .error e
      | .ok n => .ok ⟨some n, some k, res2⟩

/-- Embedding of `_transform_raw_message`: the top-level JSON load may
raise; a snapshot-marked frame takes the `R` branch; otherwise a
delta-marked frame takes the `M[0]["A"][0]` branch (raising when that
subscript chain is unavailable); anything else yields the none record. -/
def transform_raw_message : RawFrame → Except PyExc TOutput
  | .malformed => .error .otherErr
  | .parsed f =>
    match f.rfield with
    | some p => decodedBranch p .snapshot
    | none =>
      if f.deltaMark then
        match f.apay with
        | some p => decodedBranch p .update
        | none => .error .otherErr
      else .ok ⟨none, none, []⟩

/-- A well-formed inner payload object, as produced by a successful decode
of a delta or snapshot payload. -/
def goodObj : Obj :=
  [("M", JVal.str "USD-BTC".toList), ("N", JVal.num 7)]

/-- A payload whose primary decode fails with a non-SyntaxError exception
(the classes `b64decode`/`decompress` actually raise) while the fallback
framing would have decoded fine. -/
def c3BadPayload : Payload :=
  { primary := Except.error PyExc.otherErr
    fallback := Except.ok (Except.ok goodObj) }

/-- A snapshot-marked frame carrying `c3BadPayload`. -/
def c3Frame : RawFrame :=
  RawFrame.parsed { rfield := some c3BadPayload, deltaMark := false, apay := none }

/-! ## Order book and messages (`FtxOrderBookTracker._track_single_book`)

`FtxOrderBookMessage` carries bid/ask rows `(price, size)` and the
exchange nonce; in `listen_for_order_book_stream` the message timestamp is
set to the nonce itself (`snapshot_timestamp = snapshot["nonce"]`,
`diff_timestamp = diff["nonce"]`), so the `timestamp` the tracker passes
to `apply_diffs`/`apply_snapshot` is the sequence token. -/

inductive OBMsgType where
  | diff : OBMsgType
  | snapshot : OBMsgType
  deriving DecidableEq

structure OBMsg where
  msgType : OBMsgType
  token : Int
  bids : List (Int × Int)
  asks : List (Int × Int)
  deriving DecidableEq

/-- Per-instrument order book: price-keyed sides plus the last-applied
sequence token. -/
structure OrderBook where
  bids : List (Int × Int)
  asks : List (Int × Int)
  lastAppliedToken : Int
  deriving DecidableEq

/-- Modelled from the spec: one diff row applied to one side — "size 0
deletes the price level, size > 0 upserts it" (§4.4). The concrete
`OrderBook.apply_diffs` row loop lives in hummingbot core, outside src. -/
def upsertRow (levels : List (Int × Int)) (r : Int × Int) : List (Int × Int) :=
  if r.2 = 0 then levels.filter (fun l => l.1 != r.1)
  else (r.1, r.2) :: levels.filter (fun l => l.1 != r.1)

/-- Modelled from the spec: `OrderBook.apply_diffs` (hummingbot core,
outside src) applies each row to the matching side and updates the
last-applied token to the given one; the spec's §4.4 row semantics. -/
def apply_diffs (ob : OrderBook) (bids asks : List (Int × Int)) (token : Int) : OrderBook :=
  { bids := bids.foldl upsertRow ob.bids
    asks := asks.foldl upsertRow ob.asks
    lastAppliedToken := token }

/-- Modelled from the spec: `OrderBook.apply_snapshot` (hummingbot core,
outside src) replaces the book's rows wholesale and sets the last-applied
token to the snapshot's token (§4.4). -/
def apply_snapshot (_ob : OrderBook) (bids asks : List (Int × Int)) (token : Int) : OrderBook :=
  { bids := bids, asks := asks, lastAppliedToken := token }

/-- Modelled from the spec: `FtxActiveOrderTracker.convert_diff_message_to_order_book_row`
(outside src) is a pure row conversion, extracting the message's rows. -/
def convert_diff_message_to_order_book_row (m : OBMsg) : List (Int × Int) × List (Int × Int) :=
  (m.bids, m.asks)

/-- Modelled from the spec: `FtxActiveOrderTracker.convert_snapshot_message_to_order_book_row`
(outside src) is a pure row conversion, extracting the message's rows. -/
def convert_snapshot_message_to_order_book_row (m : OBMsg) : List (Int × Int) × List (Int × Int) :=
  (m.bids, m.asks)

/-- `OrderBookTracker.PAST_DIFF_WINDOW_SIZE` (hummingbot core, outside
src): the bound the source's trimming loop enforces; its exact value is
immaterial to the claims. -/
def PAST_DIFF_WINDOW_SIZE : Nat := 32

/-- The source's `while len(past_diffs_window) > PAST_DIFF_WINDOW_SIZE:
past_diffs_window.popleft()` loop. -/
def trimWindow : List OBMsg → List OBMsg
  | [] => []
  | m :: rest =>
    if (m :: rest).length > PAST_DIFF_WINDOW_SIZE then trimWindow rest
    else m :: rest

/-- The per-instrument state `_track_single_book` operates on: the owned
order book, the saved-message deque `_saved_message_queues[pair]` (head =
oldest), the `past_diffs_window`, and the inbound queue
`_tracking_message_queues[pair]` (head = next message). -/
structure TrackState where
  orderBook : OrderBook
  savedMessages : List OBMsg
  pastDiffsWindow : List OBMsg
  messageQueue : List OBMsg
  deriving DecidableEq

/-- The message dispatch of one `_track_single_book` loop body: a DIFF is
converted and applied (unconditionally), appended to the past-diffs window
which is then trimmed; a SNAPSHOT is converted and applied wholesale. -/
def process_message (s : TrackState) (m : OBMsg) : TrackState :=
  match m.msgType with
  | .diff =>
    let rows := convert_diff_message_to_order_book_row m
    { s with
      orderBook := apply_diffs s.orderBook rows.1 rows.2 m.token
      pastDiffsWindow := trimWindow (s.pastDiffsWindow ++ [m]) }
  | .snapshot =>
    let rows := convert_snapshot_message_to_order_book_row m
    { s with orderBook := apply_snapshot s.orderBook rows.1 rows.2 m.token }

/-- One iteration of the `_track_single_book` loop: pop the oldest saved
message if any, else the next queued message (suspending — `none` — when
both are empty), and dispatch it. -/
def track_single_book_step (s : TrackState) : Option TrackState :=
  match s.savedMessages with
  | m :: rest => some (process_message { s with savedMessages := rest } m)
  | [] =>
    match s.messageQueue with
    | m :: rest => some (process_message { s with messageQueue := rest } m)
    | [] => none

/-! ## Saved-message deque (`_saved_message_queues`, `deque(maxlen=1000)`) -/

/-- The `maxlen` of `_saved_message_queues`' deques (tracker line 57). -/
def SAVED_QUEUE_MAXLEN : Nat := 1000

/-- `collections.deque.append` under a `maxlen` bound: when the deque is
full the leftmost (oldest) entry is discarded as the new one is appended. -/
def dequeAppend (q : List OBMsg) (m : OBMsg) : List OBMsg :=
  if SAVED_QUEUE_MAXLEN ≤ q.length then q.tail ++ [m] else q ++ [m]

/-! ## Tracking set reconciler (`FtxOrderBookTracker._refresh_tracking_tasks`) -/

/-- The tracker's per-instrument maps. Task handles are embedded by their
`done()` flag; `cancelledTasks` records the observable `.cancel()` calls. -/
structure TrackerMaps where
  trackingTasks : List (String × Bool)
  orderBooks : List (String × OrderBook)
  activeOrderTrackers : List (String × Unit)
  trackingMessageQueues : List (String × List OBMsg)
  savedMessageQueues : List (String × List OBMsg)
  pastDiffsWindows : List (String × List OBMsg)
  cancelledTasks : List String

/-- The new-pair arm of `_refresh_tracking_tasks`: record the entry's
active-order tracker and order book, allocate a fresh inbound queue, and
start (record) a not-done tracking task. -/
def add_tracking_pair (m : TrackerMaps) (p : String × OrderBook) : TrackerMaps :=
  { m with
    activeOrderTrackers := setK m.activeOrderTrackers p.1 ()
    orderBooks := setK m.orderBooks p.1 p.2
    trackingMessageQueues := setK m.trackingMessageQueues p.1 []
    trackingTasks := setK m.trackingTasks p.1 false }

/-- The deleted-pair arm of `_refresh_tracking_tasks`: cancel the task and
delete the pair from `_tracking_tasks`, `_order_books`,
`_active_order_trackers` and `_tracking_message_queues` — and from no
other map. -/
def remove_tracking_pair (m : TrackerMaps) (p : String) : TrackerMaps :=
  { m with
    cancelledTasks := p :: m.cancelledTasks
    trackingTasks := eraseK m.trackingTasks p
    orderBooks := eraseK m.orderBooks p
    activeOrderTrackers := eraseK m.activeOrderTrackers p
    trackingMessageQueues := eraseK m.trackingMessageQueues p }

/-- Embedding of `_refresh_tracking_tasks`. `available` is the result of
`get_tracking_pairs` (pair → its entry's order book). The tracked set is
the keys of `_tracking_tasks` whose task is not done; new pairs are added
first, then deleted pairs are removed. -/
def refresh_tracking_tasks (m : TrackerMaps) (available : List (String × OrderBook)) : TrackerMaps :=
  let tracking : List String := (m.trackingTasks.filter (fun kv => !kv.2)).map (fun kv => kv.1)
  let availKeys : List String := available.map (fun kv => kv.1)
  let newPairs := available.filter (fun kv => !(tracking.contains kv.1))
  let deleted := tracking.filter (fun p => !(availKeys.contains p))
  let m1 := newPairs.foldl add_tracking_pair m
  deleted.foldl remove_tracking_pair m1

/-! ## Snapshot synchronizer (`FtxAPIOrderBookDataSource.wait_for_snapshot`)

The coroutine polls `self._snapshot_msg` once per one-second sleep until
the `async_timeout` deadline (`SNAPSHOT_TIMEOUT` seconds) cancels it. Time
is abstracted to poll iterations: `fuel` is the number of polls the
deadline admits, and `arrivals` lists, per sleep, the slot writes the
stream listener performs concurrently. -/

/-- `SNAPSHOT_TIMEOUT = 10.0` with one poll per 1-second sleep admits this
many polls before the deadline. -/
def SNAPSHOT_POLLS : Nat := 10

/-- One slot of `self._snapshot_msg`: `{"timestamp": int(time.time()),
"content": snapshot_msg}`. -/
structure SnapSlot where
  timestamp : Int
  content : OBMsg
  deriving DecidableEq

abbrev SnapMap := List (String × SnapSlot)

/-- Concurrent slot writes applied during one sleep (later writes win). -/
def applyArrivals (m : SnapMap) (ins : List (String × SnapSlot)) : SnapMap :=
  ins.foldl (fun acc kv => setK acc kv.1 kv.2) m

/-- Embedding of `wait_for_snapshot`: each iteration pops the pair's slot
unconditionally (`self._snapshot_msg.pop(trading_pair, None)`); a slot
with `timestamp >= invoke_timestamp` is returned; otherwise the loop
sleeps (absorbing that sleep's arrivals) and retries; an exhausted
deadline raises `asyncio.TimeoutError`. Returns the result together with
the final `_snapshot_msg` map. -/
def wait_for_snapshot (pair : String) (invoke_timestamp : Int) :
    Nat → SnapMap → List (List (String × SnapSlot)) → (Except Unit OBMsg) × SnapMap
  | 0, m, _ => (.error (), m)
  | Nat.succ fuel, m, arrivals =>
    let msg := lookupK m pair
    let m1 := eraseK m pair
    match msg with
    | some s =>
      if invoke_timestamp ≤ s.timestamp then (.ok s.content, m1)
      else wait_for_snapshot pair invoke_timestamp fuel
        (applyArrivals m1 (arrivals.headD [])) arrivals.tail
    | none =>
      wait_for_snapshot pair invoke_timestamp fuel
        (applyArrivals m1 (arrivals.headD [])) arrivals.tail

/-! ## Feed session (`FtxAPIOrderBookDataSource.websocket_connection`) -/

/-- Session state: `_websocket_connection` and `_websocket_hub` (embedded
by opaque ids), the `hub.server.invoke` calls issued so far, and whether
`connection.start()` has run. -/
structure WsState where
  conn : Option Nat
  hub : Option Nat
  invokes : List (String × List Char)
  started : Bool
  deriving DecidableEq

/-- The subscription naming `f"{pair.split('/')[1]}-{pair.split('/')[0]}"`
(raising `IndexError` when the pair has no slash). -/
def invokeName (p : List Char) : Except Unit (List Char) :=
  match splitOnChar '/' p with
  | p0 :: p1 :: _ => .ok (p1 ++ '-' :: p0)
  | _ => .error ()

/-- The per-pair subscription loop: compute the wire name, then call
`self._websocket_hub.server.invoke` twice — an attribute access that
raises when the hub is `None`. -/
def subscribe_loop (hub : Option Nat) (acc : List (String × List Char)) :
    List (List Char) → Except Unit (List (String × List Char))
  | [] => .ok acc
  | p :: rest =>
    match invokeName p with
    | .error e => .error e
    | .ok nm =>
      match hub with
      | none => .error ()
      | some _ =>
        subscribe_loop hub
          (acc ++ [("SubscribeToExchangeDeltas", nm), ("queryExchangeState", nm)]) rest

/-- Embedding of `websocket_connection`: when both the connection and the
hub are already set, return them unchanged; otherwise build a fresh
connection, run the subscription loop against the (never-assigned) hub,
start the connection, and return the pair. -/
def websocket_connection (s : WsState) (freshConn : Nat) (pairs : List (List Char)) :
    Except Unit (WsState × Option Nat × Option Nat) :=
  match s.conn, s.hub with
  | some c, some h => .ok (s, some c, some h)
  | _, _ =>
    let s1 : WsState := { s with conn := some freshConn }
    match subscribe_loop s1.hub s1.invokes pairs with
    | .error e => .error e
    | .ok inv => .ok ({ s1 with invokes := inv, started := true }, some freshConn, s1.hub)

/-! ## Instrument catalog (`FtxAPIOrderBookDataSource.get_trading_pairs`) -/

/-- Embedding of `get_trading_pairs`. `tp` is `self._trading_pairs`
(`none` = Python `None`); `fetched` is the outcome of
`get_active_exchange_markets` (any exception is caught). Returns the
updated `_trading_pairs` field and the returned list. -/
def get_trading_pairs (tp : Option (List String)) (fetched : Except Unit (List String)) :
    Option (List String) × List String :=
  if (tp.getD []).isEmpty then
    match fetched with
    | .ok markets => (some markets, markets)
    | .error _ => (some [], [])
  else (tp, tp.getD [])

/-! ## Concrete states used by counterexamples and witnesses -/

/-- A diff with token 3 upserting bid level 10. -/
def c1DiffMsg : OBMsg := { msgType := .diff, token := 3, bids := [(10, 1)], asks := [] }

/-- A snapshot with token 5. -/
def c1SnapMsg : OBMsg := { msgType := .snapshot, token := 5, bids := [(20, 2)], asks := [] }

/-- An instrument still awaiting its first snapshot (empty book, token 0)
with one buffered diff and the first snapshot already queued. -/
def c1State : TrackState :=
  { orderBook := { bids := [], asks := [], lastAppliedToken := 0 }
    savedMessages := [c1DiffMsg]
    pastDiffsWindow := []
    messageQueue := [c1SnapMsg] }

/-- A stale diff: token 5, equal to the book's last-applied token,
deleting bid level 100. -/
def c2Msg : OBMsg := { msgType := .diff, token := 5, bids := [(100, 0)], asks := [] }

/-- A synced book at token 5 holding bid level 100, with the stale diff
queued. -/
def c2State : TrackState :=
  { orderBook := { bids := [(100, 1)], asks := [], lastAppliedToken := 5 }
    savedMessages := []
    pastDiffsWindow := []
    messageQueue := [c2Msg] }

/-- An empty order book. -/
def emptyBook : OrderBook := { bids := [], asks := [], lastAppliedToken := 0 }

/-- Tracker maps with one tracked pair `A` whose replay buffer holds one
buffered diff. -/
def c5Maps : TrackerMaps :=
  { trackingTasks := [("A", false)]
    orderBooks := [("A", emptyBook)]
    activeOrderTrackers := [("A", ())]
    trackingMessageQueues := [("A", [])]
    savedMessageQueues := [("A", [c1DiffMsg])]
    pastDiffsWindows := [("A", [])]
    cancelledTasks := [] }

/-- Tracker maps with two tracked pairs, used to witness the removal
behaviour when only `B` stays available. -/
def c5MapsAB : TrackerMaps :=
  { trackingTasks := [("A", false), ("B", false)]
    orderBooks := [("A", emptyBook), ("B", emptyBook)]
    activeOrderTrackers := [("A", ()), ("B", ())]
    trackingMessageQueues := [("A", []), ("B", [])]
    savedMessageQueues := [("A", [c1DiffMsg]), ("B", [])]
    pastDiffsWindows := [("A", []), ("B", [])]
    cancelledTasks := [] }

/-- A concrete applied-snapshot message for synchronizer slots. -/
def sampleSnap : OBMsg := { msgType := .snapshot, token := 50, bids := [], asks := [] }

/-- A fresh slot (timestamp 7) for the synchronizer witness. -/
def freshSlot : SnapSlot := { timestamp := 7, content := sampleSnap }

/-- A stale slot (timestamp 50, older than request time 100). -/
def staleSlot : SnapSlot := { timestamp := 50, content := sampleSnap }

/-! ## Helper lemmas on the dictionary operations -/

theorem lookupK_eraseK {α : Type} (m : List (String × α)) (p k : String) :
    lookupK (eraseK m p) k = if k = p then none else lookupK m k := by
  induction m with
  | nil => simp [eraseK, lookupK]
  | cons kv rest ih =>
    obtain ⟨kk, vv⟩ := kv
    simp only [eraseK, lookupK]
    by_cases h1 : kk = p <;> by_cases h2 : kk = k <;> by_cases h3 : k = p <;>
      simp_all [lookupK, ih]

theorem lookupK_setK {α : Type} (m : List (String × α)) (p k : String) (v : α) :
    lookupK (setK m p v) k = if p = k then some v else lookupK m k := by
  induction m with
  | nil => simp [setK, lookupK]
  | cons kv rest ih =>
    obtain ⟨kk, vv⟩ := kv
    simp only [setK, lookupK]
    by_cases h1 : kk = p <;> by_cases h2 : kk = k <;> by_cases h3 : p = k <;>
      simp_all [lookupK, ih]

/-! ## Tracker loop claims -/

/-- C2 counterexample: a DIFF whose token (5) equals the book's
last-applied token (5) is nonetheless applied — bid level 100 is deleted,
so the order book changes. -/
theorem C2_counterexample :
    c2Msg.token ≤ c2State.orderBook.lastAppliedToken ∧
    ∃ s1, track_single_book_step c2State = some s1 ∧
      s1.orderBook ≠ c2State.orderBook := by
  refine ⟨by decide, _, rfl, by decide⟩

/-- C2 (amended): `_track_single_book` performs no duplicate/stale
rejection: every DIFF popped from the inbound queue is applied to the
order book unconditionally (rows applied, last-applied token overwritten
with the message's token), whatever its token — including tokens less than
or equal to the book's last-applied token. -/
theorem C2_amended_unconditional_diff_apply :
    ∀ (s : TrackState) (m : OBMsg) (rest : List OBMsg),
      s.savedMessages = [] → s.messageQueue = m :: rest →
      m.msgType = OBMsgType.diff →
      track_single_book_step s =
        some { s with
          messageQueue := rest
          orderBook := apply_diffs s.orderBook m.bids m.asks m.token
          pastDiffsWindow := trimWindow (s.pastDiffsWindow ++ [m]) } := by
  intro s m rest h1 h2 h3
  obtain ⟨ob, sm, pw, q⟩ := s
  simp only at h1 h2
  subst h1; subst h2
  simp [track_single_book_step, process_message, h3,
    convert_diff_message_to_order_book_row]

/-- C2 amended witness: the concrete stale diff of the counterexample is
applied exactly as the amended claim states. -/
theorem C2_amended_witness :
    track_single_book_step c2State =
      some { c2State with
        messageQueue := []
        orderBook := apply_diffs c2State.orderBook c2Msg.bids c2Msg.asks c2Msg.token
        pastDiffsWindow := trimWindow (c2State.pastDiffsWindow ++ [c2Msg]) } :=
  C2_amended_unconditional_diff_apply c2State c2Msg [] rfl rfl rfl

/-- C1 counterexample: an instrument with no snapshot applied yet (empty
book, token 0) holds one buffered diff (token 3) while a snapshot with
token 5 is queued; one loop iteration pops the buffered diff and applies
it to the order book — the diff is neither held nor discarded, although
its token 3 is below the snapshot token 5. -/
theorem C1_counterexample :
    c1State.orderBook.lastAppliedToken = 0 ∧
    c1DiffMsg.token ≤ c1SnapMsg.token ∧
    ∃ s1, track_single_book_step c1State = some s1 ∧
      s1.orderBook.bids = [(10, 1)] ∧ s1.savedMessages = [] := by
  refine ⟨rfl, by decide, _, rfl, rfl, rfl⟩

/-- C1 (amended): buffered messages are drained FIFO — the oldest saved
message is processed before the inbound queue is read — and each drained
DIFF is applied directly to the order book regardless of whether a
snapshot was applied before; a SNAPSHOT replaces the book wholesale and
leaves the saved buffer untouched: no buffered diff is ever discarded or
reordered by token. -/
theorem C1_amended_fifo_drain :
    (∀ (s : TrackState) (m : OBMsg) (rest : List OBMsg),
       s.savedMessages = m :: rest →
       track_single_book_step s =
         some (process_message { s with savedMessages := rest } m)) ∧
    (∀ (s : TrackState) (m : OBMsg), m.msgType = OBMsgType.snapshot →
       (process_message s m).savedMessages = s.savedMessages ∧
       (process_message s m).orderBook =
         apply_snapshot s.orderBook m.bids m.asks m.token) ∧
    (∀ (s : TrackState) (m : OBMsg), m.msgType = OBMsgType.diff →
       (process_message s m).orderBook =
         apply_diffs s.orderBook m.bids m.asks m.token) := by
  refine ⟨?_, ?_, ?_⟩
  · intro s m rest h
    obtain ⟨ob, sm, pw, q⟩ := s
    simp only at h
    subst h
    simp [track_single_book_step]
  · intro s m h
    simp [process_message, h, convert_snapshot_message_to_order_book_row]
  · intro s m h
    simp [process_message, h, convert_diff_message_to_order_book_row]

/-- C1 amended witness: the concrete buffered diff of the counterexample
is drained first and applied directly. -/
theorem C1_amended_witness :
    track_single_book_step c1State =
      some (process_message { c1State with savedMessages := [] } c1DiffMsg) ∧
    (process_message { c1State with savedMessages := [] } c1DiffMsg).orderBook =
      apply_diffs c1State.orderBook c1DiffMsg.bids c1DiffMsg.asks c1DiffMsg.token :=
  ⟨C1_amended_fifo_drain.1 c1State c1DiffMsg [] rfl,
   C1_amended_fifo_drain.2.2 { c1State with savedMessages := [] } c1DiffMsg rfl⟩

/-- C6: the saved-message deque never exceeds its `maxlen` capacity under
any sequence of appends, and an append onto a full deque drops exactly the
oldest (leftmost) entry. -/
theorem C6_replay_buffer_bounded :
    (∀ (ms q : List OBMsg), q.length ≤ SAVED_QUEUE_MAXLEN →
       (ms.foldl dequeAppend q).length ≤ SAVED_QUEUE_MAXLEN) ∧
    (∀ (q : List OBMsg) (m : OBMsg), q.length = SAVED_QUEUE_MAXLEN →
       dequeAppend q m = q.tail ++ [m]) := by
  constructor
  · intro ms
    induction ms with
    | nil => intro q h; simpa using h
    | cons m rest ih =>
      intro q h
      simp only [List.foldl_cons]
      apply ih
      unfold dequeAppend
      split
      · next hfull =>
        simp only [SAVED_QUEUE_MAXLEN] at h hfull ⊢
        simp only [List.length_append, List.length_tail, List.length_cons,
          List.length_nil]
        omega
      · next hlt =>
        simp only [SAVED_QUEUE_MAXLEN] at h hlt ⊢
        simp only [List.length_append, List.length_cons, List.length_nil]
        omega
  · intro q m h
    unfold dequeAppend
    rw [if_pos (le_of_eq h.symm)]

/-- C6 witness: the bound and the drop-oldest equation at concrete
inputs (a two-append run from empty, and a full deque of 1000 entries). -/
theorem C6_replay_buffer_bounded_witness :
    (([c1DiffMsg, c2Msg].foldl dequeAppend []).length ≤ SAVED_QUEUE_MAXLEN) ∧
    dequeAppend (List.replicate 1000 c1DiffMsg) c2Msg =
      (List.replicate 1000 c1DiffMsg).tail ++ [c2Msg] :=
  ⟨C6_replay_buffer_bounded.1 [c1DiffMsg, c2Msg] [] (by simp),
   C6_replay_buffer_bounded.2 (List.replicate 1000 c1DiffMsg) c2Msg
     (by rw [List.length_replicate]; rfl)⟩

/-! ## Feed session and catalog claims -/

/-- C8: calling `websocket_connection` while both the connection and the
hub are already set returns the existing session objects and leaves the
state — including the record of issued invoke calls — unchanged: no new
connection is created and no subscription is re-issued. -/
theorem C8_websocket_connection_idempotent :
    ∀ (s : WsState) (freshConn : Nat) (pairs : List (List Char)) (c h : Nat),
      s.conn = some c → s.hub = some h →
      websocket_connection s freshConn pairs = .ok (s, some c, some h) := by
  intro s freshConn pairs c h hc hh
  simp [websocket_connection, hc, hh]

/-- C8 witness: a concretely connected session state is returned as is. -/
theorem C8_websocket_connection_idempotent_witness :
    websocket_connection
      { conn := some 1, hub := some 2, invokes := [], started := true } 9 [] =
      .ok ({ conn := some 1, hub := some 2, invokes := [], started := true },
           some 1, some 2) :=
  C8_websocket_connection_idempotent
    { conn := some 1, hub := some 2, invokes := [], started := true } 9 [] 1 2 rfl rfl

/-- C9: when the instrument-catalog fetch fails (and a fetch was needed,
the cached list being absent or empty), `get_trading_pairs` returns — it
does not raise — and degrades to an empty instrument list. -/
theorem C9_catalog_failure_degrades :
    ∀ (tp : Option (List String)), (tp.getD []).isEmpty = true →
      get_trading_pairs tp (.error ()) = (some [], []) := by
  intro tp h
  simp [get_trading_pairs, h]

/-- C9 witness: with no cached list and a failing fetch the result is the
empty list. -/
theorem C9_catalog_failure_degrades_witness :
    get_trading_pairs none (.error ()) = (some [], []) :=
  C9_catalog_failure_degrades none rfl

/-! ## Decoder claims -/

/-- C3 counterexample: a snapshot-marked frame whose payload fails its
primary decode with the exception classes `b64decode`/`decompress` really
raise (not `SyntaxError`): `_decode_message` returns the empty record
without consulting the fallback framing — which here would have decoded
fine — and `_transform_raw_message` then raises (`KeyError` on the missing
instrument field) instead of yielding an empty/none record. -/
theorem C3_counterexample :
    transform_raw_message c3Frame = .error .otherErr ∧
    decode_message c3BadPayload = .ok [] ∧
    c3BadPayload.fallback = .ok (.ok goodObj) :=
  ⟨rfl, rfl, rfl⟩

/-- C3 (amended): the fallback framing is attempted only when the primary
decode raises `SyntaxError`; any other primary failure makes
`_decode_message` return the empty record; frames carrying neither marker
yield the empty/none output without raising; but `_transform_raw_message`
itself raises on a malformed top-level frame, and on a snapshot-marked
frame whose payload decode failed (the empty record lacks the instrument
field). -/
theorem C3_amended_decode_behavior :
    (∀ p : Payload, p.primary = .error .otherErr → decode_message p = .ok []) ∧
    (∀ (p : Payload) (b : PyBytes), p.primary = .error .synErr →
       p.fallback = .ok b → decode_message p = ujsonLoads b) ∧
    (∀ f : ParsedFrame, f.rfield = none → f.deltaMark = false →
       transform_raw_message (.parsed f) = .ok ⟨none, none, []⟩) ∧
    (∀ (f : ParsedFrame) (p : Payload), f.rfield = some p →
       p.primary = .error .otherErr →
       transform_raw_message (.parsed f) = .error .otherErr) ∧
    (transform_raw_message .malformed = .error .otherErr) := by
  refine ⟨?_, ?_, ?_, ?_, rfl⟩
  · intro p h
    simp [decode_message, h]
  · intro p b h1 h2
    simp [decode_message, h1, h2]
  · intro f h1 h2
    simp [transform_raw_message, h1, h2]
  · intro f p h1 h2
    have hd : decode_message p = .ok [] := by simp [decode_message, h2]
    simp [transform_raw_message, h1, decodedBranch, hd, normalizePair, getItem,
      lookupK]

/-- C3 amended witness: the amended behaviour at the concrete inputs of
the counterexample (and a concrete unmarked frame). -/
theorem C3_amended_witness :
    decode_message c3BadPayload = .ok [] ∧
    transform_raw_message (.parsed ⟨none, false, none⟩) = .ok ⟨none, none, []⟩ ∧
    transform_raw_message (.parsed ⟨some c3BadPayload, false, none⟩) =
      .error .otherErr :=
  ⟨C3_amended_decode_behavior.1 c3BadPayload rfl,
   C3_amended_decode_behavior.2.2.1 ⟨none, false, none⟩ rfl rfl,
   C3_amended_decode_behavior.2.2.2.1 ⟨some c3BadPayload, false, none⟩
     c3BadPayload rfl rfl⟩

/-- C7: whenever a snapshot- or delta-marked frame's payload decodes to a
record whose instrument field is a string of two hyphen-separated
components (wire order `QUOTE-BASE`), the decoder's output record carries
the instrument rewritten with the two components swapped (`BASE-QUOTE`),
for both frame kinds. -/
theorem C7_instrument_normalized :
    ∀ (p : Payload) (res : Obj) (mstr q b : List Char) (nv : JVal)
      (f : ParsedFrame),
      decode_message p = .ok res →
      lookupK res "M" = some (JVal.str mstr) →
      splitDash mstr = [q, b] →
      lookupK res "N" = some nv →
      (f.rfield = some p →
         transform_raw_message (.parsed f) =
           .ok ⟨some nv, some .snapshot,
                setK res "M" (JVal.str (b ++ '-' :: q))⟩) ∧
      (f.rfield = none → f.deltaMark = true → f.apay = some p →
         transform_raw_message (.parsed f) =
           .ok ⟨some nv, some .update,
                setK res "M" (JVal.str (b ++ '-' :: q))⟩) := by
  intro p res mstr q b nv f hdec hm hsplit hn
  have hnorm : normalizePair res =
      .ok (setK res "M" (JVal.str (b ++ '-' :: q))) := by
    simp [normalizePair, getItem, hm, asStr, hsplit]
  have hnn : lookupK (setK res "M" (JVal.str (b ++ '-' :: q))) "N" = some nv := by
    rw [lookupK_setK, if_neg (by decide), hn]
  have hbranch : ∀ k, decodedBranch p k =
      .ok ⟨some nv, some k, setK res "M" (JVal.str (b ++ '-' :: q))⟩ := by
    intro k
    simp [decodedBranch, hdec, hnorm, getItem, hnn]
  constructor
  · intro hr
    simp [transform_raw_message, hr, hbranch]
  · intro hr hd ha
    simp [transform_raw_message, hr, hd, ha, hbranch]

/-- C7 witness: a snapshot frame whose payload holds instrument `USD-BTC`
is surfaced with instrument `BTC-USD`. -/
theorem C7_instrument_normalized_witness :
    transform_raw_message
      (.parsed ⟨some ⟨.ok (.ok goodObj), .error .otherErr⟩, false, none⟩) =
      .ok ⟨some (JVal.num 7), some .snapshot,
           setK goodObj "M"
             (JVal.str ("BTC".toList ++ '-' :: "USD".toList))⟩ :=
  (C7_instrument_normalized ⟨.ok (.ok goodObj), .error .otherErr⟩ goodObj
      "USD-BTC".toList "USD".toList "BTC".toList (JVal.num 7)
      ⟨some ⟨.ok (.ok goodObj), .error .otherErr⟩, false, none⟩
      rfl rfl (by decide) rfl).1 rfl

/-! ## Snapshot synchronizer claims -/

theorem applyArrivals_bound (pair : String) (T : Int) (m : SnapMap)
    (ins : List (String × SnapSlot))
    (hm : ∀ s, lookupK m pair = some s → s.timestamp < T)
    (hins : ∀ kv ∈ ins, kv.1 = pair → kv.2.timestamp < T) :
    ∀ s, lookupK (applyArrivals m ins) pair = some s → s.timestamp < T := by
  induction ins generalizing m with
  | nil => simpa [applyArrivals] using hm
  | cons kv rest ih =>
    simp only [applyArrivals, List.foldl_cons] at *
    apply ih (setK m kv.1 kv.2)
    · intro s hs
      rw [lookupK_setK] at hs
      by_cases h : kv.1 = pair
      · rw [if_pos h] at hs
        cases hs
        exact hins kv (List.mem_cons_self kv rest) h
      · rw [if_neg h] at hs
        exact hm s hs
    · intro kv2 h2 hp
      exact hins kv2 (List.mem_cons_of_mem _ h2) hp

/-- C4: `wait_for_snapshot` (time abstracted to poll iterations: `fuel`
polls fit inside the `SNAPSHOT_TIMEOUT` deadline) (1) only ever returns a
snapshot coming from a slot whose recorded timestamp is at least the
request timestamp, and the matched slot is consumed — absent from the
final pending map — so a request is satisfied at most once; (2) with the
deadline exhausted it raises the timeout error; (3) if neither the initial
pending map nor any concurrent slot write carries a slot for the pair with
timestamp ≥ the request timestamp, the call raises the timeout error. -/
theorem C4_wait_for_snapshot_contract :
    ∀ (pair : String) (T : Int),
      (∀ (fuel : Nat) (m : SnapMap) (arr : List (List (String × SnapSlot)))
         (c : OBMsg) (mf : SnapMap),
         wait_for_snapshot pair T fuel m arr = (.ok c, mf) →
         ∃ s : SnapSlot, c = s.content ∧ T ≤ s.timestamp ∧
           lookupK mf pair = none) ∧
      (∀ (m : SnapMap) (arr : List (List (String × SnapSlot))),
         wait_for_snapshot pair T 0 m arr = (.error (), m)) ∧
      (∀ (fuel : Nat) (m : SnapMap) (arr : List (List (String × SnapSlot))),
         (∀ s, lookupK m pair = some s → s.timestamp < T) →
         (∀ ins ∈ arr, ∀ kv ∈ ins, kv.1 = pair → kv.2.timestamp < T) →
         (wait_for_snapshot pair T fuel m arr).1 = .error ()) := by
  intro pair T
  refine ⟨?_, fun m arr => rfl, ?_⟩
  · intro fuel
    induction fuel with
    | zero =>
      intro m arr c mf h
      simp [wait_for_snapshot] at h
    | succ fuel ih =>
      intro m arr c mf h
      simp only [wait_for_snapshot] at h
      cases hm : lookupK m pair with
      | none =>
        rw [hm] at h
        exact ih _ _ _ _ h
      | some s =>
        rw [hm] at h
        by_cases ht : T ≤ s.timestamp
        · simp only [ht, if_true] at h
          injection h with h1 h2
          injection h1 with h1
          refine ⟨s, h1.symm, ht, ?_⟩
          rw [← h2, lookupK_eraseK, if_pos rfl]
        · simp only [ht, if_false] at h
          exact ih _ _ _ _ h
  · intro fuel
    induction fuel with
    | zero => intro m arr _ _; rfl
    | succ fuel ih =>
      intro m arr h1 h2
      have hhd : ∀ kv ∈ arr.headD [], kv.1 = pair → kv.2.timestamp < T := by
        cases arr with
        | nil => simp
        | cons a t =>
          intro kv hk hp
          exact h2 a (List.mem_cons_self a t) kv hk hp
      have htl : ∀ ins ∈ arr.tail, ∀ kv ∈ ins, kv.1 = pair →
          kv.2.timestamp < T := by
        cases arr with
        | nil => simp
        | cons a t =>
          intro ins hi
          exact h2 ins (List.mem_cons_of_mem a hi)
      have herased : ∀ s, lookupK (eraseK m pair) pair = some s →
          s.timestamp < T := by
        intro s hs
        rw [lookupK_eraseK, if_pos rfl] at hs
        cases hs
      have hnext := applyArrivals_bound pair T (eraseK m pair) (arr.headD [])
        herased hhd
      simp only [wait_for_snapshot]
      cases hm : lookupK m pair with
      | none => exact ih _ _ hnext htl
      | some s =>
        simp only [not_le.mpr (h1 s hm), if_false]
        exact ih _ _ hnext htl

/-- C4 witness: a fresh slot (timestamp 7 ≥ request time 5) is returned
and consumed from the pending map. -/
theorem C4_wait_for_snapshot_contract_witness :
    ∃ s : SnapSlot, sampleSnap = s.content ∧ (5 : Int) ≤ s.timestamp ∧
      lookupK ([] : SnapMap) "BTC-USD" = none :=
  (C4_wait_for_snapshot_contract "BTC-USD" 5).1 SNAPSHOT_POLLS
    [("BTC-USD", freshSlot)] [] sampleSnap [] rfl

/-- C10: each polling iteration of `wait_for_snapshot` pops the
instrument's slot even when the slot is stale (timestamp below the request
timestamp): the loop continues on the map with the slot removed; in
particular a pending stale slot is silently discarded and the request then
times out even though a (stale) snapshot was present. -/
theorem C10_stale_slot_discarded :
    (∀ (pair : String) (T : Int) (fuel : Nat) (m : SnapMap)
       (arr : List (List (String × SnapSlot))) (s : SnapSlot),
       lookupK m pair = some s → s.timestamp < T →
       wait_for_snapshot pair T (fuel + 1) m arr =
         wait_for_snapshot pair T fuel
           (applyArrivals (eraseK m pair) (arr.headD [])) arr.tail) ∧
    wait_for_snapshot "BTC-USD" 100 SNAPSHOT_POLLS
      [("BTC-USD", staleSlot)] [] = (.error (), []) := by
  constructor
  · intro pair T fuel m arr s hm ht
    simp only [wait_for_snapshot]
    rw [hm]
    simp only [not_le.mpr ht, if_false]
  · rfl

/-- C10 witness: one concrete stale poll step discards the slot and
continues. -/
theorem C10_stale_slot_discarded_witness :
    wait_for_snapshot "BTC-USD" 100 (9 + 1) [("BTC-USD", staleSlot)] [] =
      wait_for_snapshot "BTC-USD" 100 9
        (applyArrivals (eraseK [("BTC-USD", staleSlot)] "BTC-USD")
          (([] : List (List (String × SnapSlot))).headD []))
        ([] : List (List (String × SnapSlot))).tail :=
  C10_stale_slot_discarded.1 "BTC-USD" 100 9 [("BTC-USD", staleSlot)] []
    staleSlot rfl (by decide)

/-! ## Tracking set reconciler claims -/

theorem foldl_remove_lookup_gen {α : Type} (f : TrackerMaps → List (String × α))
    (hf : ∀ m p, f (remove_tracking_pair m p) = eraseK (f m) p)
    (L : List String) (m : TrackerMaps) (k : String) :
    lookupK (f (L.foldl remove_tracking_pair m)) k =
      if k ∈ L then none else lookupK (f m) k := by
  induction L generalizing m with
  | nil => simp
  | cons p rest ih =>
    simp only [List.foldl_cons]
    rw [ih (remove_tracking_pair m p), hf, lookupK_eraseK]
    by_cases h1 : k = p <;> by_cases h2 : k ∈ rest <;>
      simp [h1, h2, List.mem_cons]

theorem foldl_add_lookup_gen {α : Type} (f : TrackerMaps → List (String × α))
    (hf : ∀ m p, ∃ v, f (add_tracking_pair m p) = setK (f m) p.1 v)
    (L : List (String × OrderBook)) (m : TrackerMaps) (k : String)
    (hk : k ∉ L.map (fun kv => kv.1)) :
    lookupK (f (L.foldl add_tracking_pair m)) k = lookupK (f m) k := by
  induction L generalizing m with
  | nil => rfl
  | cons p rest ih =>
    simp only [List.map_cons, List.mem_cons, not_or] at hk
    obtain ⟨hk1, hk2⟩ := hk
    simp only [List.foldl_cons]
    rw [ih (add_tracking_pair m p) hk2]
    obtain ⟨v, hv⟩ := hf m p
    rw [hv, lookupK_setK, if_neg (fun e => hk1 e.symm)]

theorem foldl_add_untouched (L : List (String × OrderBook)) (m : TrackerMaps) :
    (L.foldl add_tracking_pair m).savedMessageQueues = m.savedMessageQueues ∧
    (L.foldl add_tracking_pair m).pastDiffsWindows = m.pastDiffsWindows ∧
    (L.foldl add_tracking_pair m).cancelledTasks = m.cancelledTasks := by
  induction L generalizing m with
  | nil => exact ⟨rfl, rfl, rfl⟩
  | cons p rest ih =>
    simp only [List.foldl_cons]
    exact ih (add_tracking_pair m p)

theorem foldl_remove_untouched (L : List String) (m : TrackerMaps) :
    (L.foldl remove_tracking_pair m).savedMessageQueues =
      m.savedMessageQueues ∧
    (L.foldl remove_tracking_pair m).pastDiffsWindows = m.pastDiffsWindows := by
  induction L generalizing m with
  | nil => exact ⟨rfl, rfl⟩
  | cons p rest ih =>
    simp only [List.foldl_cons]
    exact ih (remove_tracking_pair m p)

theorem foldl_remove_cancelled (L : List String) (m : TrackerMaps) (k : String)
    (h : k ∈ L ∨ k ∈ m.cancelledTasks) :
    k ∈ (L.foldl remove_tracking_pair m).cancelledTasks := by
  induction L generalizing m with
  | nil => simpa using h
  | cons p rest ih =>
    simp only [List.foldl_cons]
    apply ih
    rcases h with h | h
    · rcases List.mem_cons.mp h with h | h
      · right
        subst h
        exact List.mem_cons_self k m.cancelledTasks
      · left
        exact h
    · right
      exact List.mem_cons_of_mem _ h

/-- C5 counterexample: removing the one tracked pair `A` cancels its task
and deletes its order book, active-order tracker and inbound queue, but
its replay buffer (`_saved_message_queues["A"]`, holding a buffered diff)
and its past-diffs window are left in place — the replay buffer is leaked,
contradicting "order book, replay buffer, and inbound queue are all
released". -/
theorem C5_counterexample :
    (refresh_tracking_tasks c5Maps []).cancelledTasks = ["A"] ∧
    lookupK (refresh_tracking_tasks c5Maps []).trackingTasks "A" = none ∧
    lookupK (refresh_tracking_tasks c5Maps []).orderBooks "A" = none ∧
    lookupK (refresh_tracking_tasks c5Maps []).trackingMessageQueues "A" = none ∧
    lookupK (refresh_tracking_tasks c5Maps []).savedMessageQueues "A" =
      some [c1DiffMsg] ∧
    lookupK (refresh_tracking_tasks c5Maps []).pastDiffsWindows "A" = some [] :=
  ⟨rfl, rfl, rfl, rfl, rfl, rfl⟩

/-- C5 (amended): for every removed instrument the background task is
cancelled and the order book, active-order tracker and inbound queue are
deleted from their maps, and entries of instruments that stay tracked are
unchanged — but the replay buffer map (`_saved_message_queues`) and the
past-diffs-window map are never touched by the reconciler, so a removed
instrument's replay buffer is not released. -/
theorem C5_amended_removal_effect :
    ∀ (m : TrackerMaps) (available : List (String × OrderBook)) (p : String),
      ((refresh_tracking_tasks m available).savedMessageQueues =
         m.savedMessageQueues ∧
       (refresh_tracking_tasks m available).pastDiffsWindows =
         m.pastDiffsWindows) ∧
      (p ∈ (m.trackingTasks.filter (fun kv => !kv.2)).map (fun kv => kv.1) →
       p ∉ available.map (fun kv => kv.1) →
       lookupK (refresh_tracking_tasks m available).trackingTasks p = none ∧
       lookupK (refresh_tracking_tasks m available).orderBooks p = none ∧
       lookupK (refresh_tracking_tasks m available).activeOrderTrackers p =
         none ∧
       lookupK (refresh_tracking_tasks m available).trackingMessageQueues p =
         none ∧
       p ∈ (refresh_tracking_tasks m available).cancelledTasks) ∧
      (p ∈ (m.trackingTasks.filter (fun kv => !kv.2)).map (fun kv => kv.1) →
       p ∈ available.map (fun kv => kv.1) →
       lookupK (refresh_tracking_tasks m available).trackingTasks p =
         lookupK m.trackingTasks p ∧
       lookupK (refresh_tracking_tasks m available).orderBooks p =
         lookupK m.orderBooks p ∧
       lookupK (refresh_tracking_tasks m available).activeOrderTrackers p =
         lookupK m.activeOrderTrackers p ∧
       lookupK (refresh_tracking_tasks m available).trackingMessageQueues p =
         lookupK m.trackingMessageQueues p) := by
  intro m available p
  simp only [refresh_tracking_tasks]
  refine ⟨?_, ?_, ?_⟩
  · obtain ⟨ha1, ha2, _⟩ := foldl_add_untouched
      (available.filter (fun kv =>
        !(((m.trackingTasks.filter (fun kv => !kv.2)).map
          (fun kv => kv.1)).contains kv.1))) m
    obtain ⟨hr1, hr2⟩ := foldl_remove_untouched _ _
    exact ⟨hr1.trans ha1, hr2.trans ha2⟩
  · intro hp hq
    have hdel : p ∈ ((m.trackingTasks.filter (fun kv => !kv.2)).map
        (fun kv => kv.1)).filter (fun q =>
          !((available.map (fun kv => kv.1)).contains q)) := by
      rw [List.mem_filter]
      refine ⟨hp, ?_⟩
      simp only [Bool.not_eq_true']
      rw [← Bool.not_eq_true]
      intro hc
      exact hq (List.elem_iff.mp hc)
    refine ⟨?_, ?_, ?_, ?_, ?_⟩
    · rw [foldl_remove_lookup_gen TrackerMaps.trackingTasks (fun _ _ => rfl),
        if_pos hdel]
    · rw [foldl_remove_lookup_gen TrackerMaps.orderBooks (fun _ _ => rfl),
        if_pos hdel]
    · rw [foldl_remove_lookup_gen TrackerMaps.activeOrderTrackers
        (fun _ _ => rfl), if_pos hdel]
    · rw [foldl_remove_lookup_gen TrackerMaps.trackingMessageQueues
        (fun _ _ => rfl), if_pos hdel]
    · exact foldl_remove_cancelled _ _ p (Or.inl hdel)
  · intro hp ha
    have hnotdel : p ∉ ((m.trackingTasks.filter (fun kv => !kv.2)).map
        (fun kv => kv.1)).filter (fun q =>
          !((available.map (fun kv => kv.1)).contains q)) := by
      intro hc
      obtain ⟨_, hc2⟩ := List.mem_filter.mp hc
      simp only [Bool.not_eq_true'] at hc2
      rw [← Bool.not_eq_true] at hc2
      exact hc2 (List.elem_iff.mpr ha)
    have hnotnew : p ∉ (available.filter (fun kv =>
        !(((m.trackingTasks.filter (fun kv => !kv.2)).map
          (fun kv => kv.1)).contains kv.1))).map (fun kv => kv.1) := by
      intro hc
      obtain ⟨kv, hkv, hkv1⟩ := List.mem_map.mp hc
      obtain ⟨_, hkv2⟩ := List.mem_filter.mp hkv
      simp only [Bool.not_eq_true'] at hkv2
      rw [← Bool.not_eq_true] at hkv2
      rw [hkv1] at hkv2
      exact hkv2 (List.elem_iff.mpr hp)
    refine ⟨?_, ?_, ?_, ?_⟩
    · rw [foldl_remove_lookup_gen TrackerMaps.trackingTasks (fun _ _ => rfl),
        if_neg hnotdel,
        foldl_add_lookup_gen TrackerMaps.trackingTasks
          (fun _ _ => ⟨false, rfl⟩) _ _ _ hnotnew]
    · rw [foldl_remove_lookup_gen TrackerMaps.orderBooks (fun _ _ => rfl),
        if_neg hnotdel,
        foldl_add_lookup_gen TrackerMaps.orderBooks
          (fun _ q => ⟨q.2, rfl⟩) _ _ _ hnotnew]
    · rw [foldl_remove_lookup_gen TrackerMaps.activeOrderTrackers
          (fun _ _ => rfl), if_neg hnotdel,
        foldl_add_lookup_gen TrackerMaps.activeOrderTrackers
          (fun _ _ => ⟨(), rfl⟩) _ _ _ hnotnew]
    · rw [foldl_remove_lookup_gen TrackerMaps.trackingMessageQueues
          (fun _ _ => rfl), if_neg hnotdel,
        foldl_add_lookup_gen TrackerMaps.trackingMessageQueues
          (fun _ _ => ⟨[], rfl⟩) _ _ _ hnotnew]

/-- C5 amended witness: with pairs `A`, `B` tracked and only `B` still
available, `A` is fully removed from the four reconciled maps and
cancelled while `B`'s entries are unchanged. -/
theorem C5_amended_removal_effect_witness :
    (lookupK (refresh_tracking_tasks c5MapsAB [("B", emptyBook)]).trackingTasks
        "A" = none ∧
     lookupK (refresh_tracking_tasks c5MapsAB [("B", emptyBook)]).orderBooks
        "A" = none ∧
     lookupK (refresh_tracking_tasks c5MapsAB
        [("B", emptyBook)]).activeOrderTrackers "A" = none ∧
     lookupK (refresh_tracking_tasks c5MapsAB
        [("B", emptyBook)]).trackingMessageQueues "A" = none ∧
     "A" ∈ (refresh_tracking_tasks c5MapsAB [("B", emptyBook)]).cancelledTasks) ∧
    (lookupK (refresh_tracking_tasks c5MapsAB [("B", emptyBook)]).trackingTasks
        "B" = lookupK c5MapsAB.trackingTasks "B" ∧
     lookupK (refresh_tracking_tasks c5MapsAB [("B", emptyBook)]).orderBooks
        "B" = lookupK c5MapsAB.orderBooks "B" ∧
     lookupK (refresh_tracking_tasks c5MapsAB
        [("B", emptyBook)]).activeOrderTrackers "B" =
        lookupK c5MapsAB.activeOrderTrackers "B" ∧
     lookupK (refresh_tracking_tasks c5MapsAB
        [("B", emptyBook)]).trackingMessageQueues "B" =
        lookupK c5MapsAB.trackingMessageQueues "B") :=
  ⟨(C5_amended_removal_effect c5MapsAB [("B", emptyBook)] "A").2.1
      (by decide) (by decide),
   (C5_amended_removal_effect c5MapsAB [("B", emptyBook)] "B").2.2
      (by decide) (by decide)⟩
